import Mathlib

/-
Verification of the cast-kit client core against its specification.

The development shallowly embeds three parts of the library:

  * Part A - the session controller (src/client/core/client.ts):
    `CastState`, the five public operations and the inbound event handler,
    each modelled as a pure function of the pre-state and the outcome of
    the correlated send.  An operation "settling" (its promise resolving
    or rejecting) is one atomic application of such a function, matching
    the cooperative single-threaded model of the source.
  * Part B - the WebView bridge (src/client/bridge/webview-bridge.ts and
    protocol.ts): the pending-request map, promise settlement, timeout
    firing, inbound dispatch and the zod message validator, over a model
    `BVal` of JSON-shaped JavaScript values.
  * Part C - the state manager (src/client/core/state.ts): JS spread
    shallow-merge `setState`, and the selector subscription machinery
    with its `isEqual` deep-equality check, over a model `Value` of
    JavaScript values in which arrays are index-keyed objects (exactly
    how `isEqual` itself treats them, via Object.keys).
-/

namespace CastKit

/-- Association-list lookup, first binding wins; models JS Map.get and
single-binding object property access. -/
def alookup {α : Type} (k : String) : List (String × α) → Option α
  | [] => none
  | (k₂, v) :: rest => if k₂ == k then some v else alookup k rest

/-- Association-list update; models JS Map.set (update in place if the key
exists, else append, preserving insertion order). -/
def aset {α : Type} (k : String) (v : α) : List (String × α) → List (String × α)
  | [] => [(k, v)]
  | (k₂, w) :: rest => if k₂ == k then (k₂, v) :: rest else (k₂, w) :: aset k v rest

/-- Association-list removal; models JS Map.delete. -/
def adelete {α : Type} (k : String) (l : List (String × α)) : List (String × α) :=
  l.filter (fun kv => !(kv.1 == k))

/-- JS truthiness of a nullable string: null and the empty string are falsy
(used by the source in guards such as `if (!sessionId)`). -/
def truthyStr : Option String → Bool
  | none => false
  | some s => !s.isEmpty

/-- Cast device record (src/client/core/types.ts, CastDevice). -/
structure CastDevice where
  id : String
  name : String
  type : String
  isConnected : Bool
deriving DecidableEq, Repr

/-- Cast error record (src/client/core/types.ts, CastError); `details` is
abstracted to the originating error string when present. -/
structure CastError where
  code : String
  message : String
  details : Option String
deriving DecidableEq, Repr

/-- The client state aggregate (src/client/core/types.ts, CastState). -/
structure CastState where
  isAvailable : Bool
  isCasting : Bool
  isConnecting : Bool
  isScanning : Bool
  deviceName : Option String
  deviceId : Option String
  sessionId : Option String
  devices : List CastDevice
  error : Option CastError
deriving DecidableEq, Repr

/-- Initial state (src/client/core/state.ts, initialState). -/
def initialState : CastState :=
  { isAvailable := false
    isCasting := false
    isConnecting := false
    isScanning := false
    deviceName := none
    deviceId := none
    sessionId := none
    devices := []
    error := none }

/-- CastKitClient.handleError: records a BRIDGE_ERROR into `state.error`,
wrapping the original failure in `details`. -/
def handleError (s : CastState) (msg : String) (e : String) : CastState :=
  { s with error := some { code := "BRIDGE_ERROR", message := msg, details := some e } }

/-- Payload of the response to CAST_READY as read by signalReady:
`response.payload?.available ?? false` and `response.payload?.devices || []`
both treat a missing field as absent. -/
structure ReadyResponsePayload where
  available : Option Bool
  devices : Option (List CastDevice)
deriving DecidableEq, Repr

/-- CastKitClient.signalReady, settled: on response, update `isAvailable` and
`devices` from the payload; on send failure, record the error and re-throw. -/
def signalReady (s : CastState) (r : Except String ReadyResponsePayload) :
    CastState × Except String Unit :=
  match r with
  | .ok p =>
      ({ s with isAvailable := p.available.getD false, devices := p.devices.getD [] }, .ok ())
  | .error e => (handleError s "Failed to signal readiness" e, .error e)

/-- CastKitClient.scanForDevices, first phase: the optimistic
`setState({ isScanning: true })` issued before the CAST_SCAN_DEVICES send. -/
def scanBegin (s : CastState) : CastState :=
  { s with isScanning := true }

/-- CastKitClient.scanForDevices, settlement of the awaited send: the success
path performs no state update (devices and isScanning are left to the event
listeners); the failure path clears `isScanning` and records the error. -/
def scanSettle (s : CastState) (r : Except String Unit) : CastState × Except String Unit :=
  match r with
  | .ok _ => (s, .ok ())
  | .error e => (handleError { s with isScanning := false } "Failed to scan for devices" e, .error e)

/-- CastKitClient.scanForDevices, whole operation settled. -/
def scanForDevices (s : CastState) (r : Except String Unit) : CastState × Except String Unit :=
  scanSettle (scanBegin s) r

/-- CastKitClient.startCasting, first phase: optimistic
`setState({ isConnecting: true, deviceId })` issued before the send. -/
def startBegin (s : CastState) (deviceId : String) : CastState :=
  { s with isConnecting := true, deviceId := some deviceId }

/-- CastKitClient.startCasting, settlement: the success path performs no state
update (session status arrives via events); the failure path rolls back
`isConnecting`/`deviceId`, records the error and re-throws the same failure. -/
def startSettle (s : CastState) (r : Except String Unit) : CastState × Except String Unit :=
  match r with
  | .ok _ => (s, .ok ())
  | .error e =>
      (handleError { s with isConnecting := false, deviceId := (none : Option String) }
        "Failed to start casting" e, .error e)

/-- CastKitClient.startCasting, whole operation settled. -/
def startCasting (s : CastState) (deviceId : String) (r : Except String Unit) :
    CastState × Except String Unit :=
  startSettle (startBegin s deviceId) r

/-- CastKitClient.stopCasting, settled.  The middle component lists the types
of the messages sent.  `if (!sessionId) return` makes the operation a silent
no-op (no send, no state change) when `sessionId` is falsy; otherwise, on the
CAST_END_SESSION send succeeding, the five casting fields are cleared (the
`devices` list is not touched); on failure the error is recorded. -/
def stopCasting (s : CastState) (r : Except String Unit) :
    CastState × List String × Except String Unit :=
  if truthyStr s.sessionId = false then (s, [], .ok ())
  else
    match r with
    | .ok _ =>
        ({ s with
            isCasting := false
            isConnecting := false
            deviceId := none
            deviceName := none
            sessionId := none }, ["CAST_END_SESSION"], .ok ())
    | .error e => (handleError s "Failed to stop casting" e, ["CAST_END_SESSION"], .error e)

/-- CastKitClient.sendStateUpdate, settled: throws without sending when
`sessionId` is falsy; otherwise sends CAST_STATE_UPDATE and records the error
on failure. -/
def sendStateUpdate (s : CastState) (r : Except String Unit) :
    CastState × Except String Unit :=
  if truthyStr s.sessionId = false then (s, .error "No active cast session")
  else
    match r with
    | .ok _ => (s, .ok ())
    | .error e => (handleError s "Failed to send state update" e, .error e)

/-- CastKitClient.resetError. -/
def resetError (s : CastState) : CastState :=
  { s with error := none }

/-- Session status enum of the CAST_SESSION_UPDATED payload (protocol.ts
restricts it to these four values). -/
inductive SessionStatus where
  | connecting
  | connected
  | terminated
  | error
deriving DecidableEq, Repr

/-- Payload of a CAST_SESSION_UPDATED event, as validated by protocol.ts. -/
structure SessionUpdatedPayload where
  status : SessionStatus
  deviceId : String
  deviceName : String
  sessionId : String
  error : Option String
deriving DecidableEq, Repr

/-- Inbound events dispatched by CastKitClient.setupEventListeners. -/
inductive InboundEvent where
  | devicesUpdated (devices : Option (List CastDevice))
  | sessionUpdated (p : SessionUpdatedPayload)
  | castError (code : String) (message : String) (details : Option String)
deriving DecidableEq, Repr

/-- JS `x || d` on a nullable string: the default is used when x is falsy
(null or empty). -/
def orDefaultStr (o : Option String) (d : String) : String :=
  match o with
  | none => d
  | some s => if s.isEmpty then d else s

/-- CastKitClient.setupEventListeners message handler, one event handled.
CAST_SESSION_UPDATED branches on the status; a `connecting` status matches no
branch of the if/else chain and performs no state update. -/
def handleEvent (s : CastState) (e : InboundEvent) : CastState :=
  match e with
  | .devicesUpdated ds => { s with isScanning := false, devices := ds.getD [] }
  | .sessionUpdated p =>
      match p.status with
      | .connected =>
          { s with
              isConnecting := false
              isCasting := true
              deviceId := some p.deviceId
              deviceName := some p.deviceName
              sessionId := some p.sessionId }
      | .terminated =>
          { s with
              isCasting := false
              isConnecting := false
              deviceId := none
              deviceName := none
              sessionId := none }
      | .error =>
          { s with
              isCasting := false
              isConnecting := false
              deviceId := none
              deviceName := none
              sessionId := none
              error := some { code := "SESSION_ERROR"
                              message := orDefaultStr p.error "Session error"
                              details := none } }
      | .connecting => s
  | .castError c m d => { s with error := some { code := c, message := m, details := d } }

/-- One settled client operation or handled inbound event, together with the
outcome of its correlated send where it has one. -/
inductive ClientOp where
  | signalReady (r : Except String ReadyResponsePayload)
  | scan (r : Except String Unit)
  | start (deviceId : String) (r : Except String Unit)
  | stop (r : Except String Unit)
  | stateUpdate (r : Except String Unit)
  | resetError
  | inbound (e : InboundEvent)

/-- State reached after one settled operation or handled event. -/
def applyOp (s : CastState) (op : ClientOp) : CastState :=
  match op with
  | .signalReady r => (signalReady s r).1
  | .scan r => (scanForDevices s r).1
  | .start d r => (startCasting s d r).1
  | .stop r => (stopCasting s r).1
  | .stateUpdate r => (sendStateUpdate s r).1
  | .resetError => resetError s
  | .inbound e => handleEvent s e

/-- State reached after a sequence of settled operations and handled events. -/
def runOps (s : CastState) (ops : List ClientOp) : CastState :=
  ops.foldl applyOp s

/-- States reachable from the initial state when every startCasting call is
issued from a settled state in which `isCasting` is false (the intended
Idle/Scanning entry into the Connecting state). -/
inductive ReachableNoRestart : CastState → Prop
  | init : ReachableNoRestart initialState
  | step (s : CastState) (op : ClientOp) (h : ReachableNoRestart s)
      (hguard : ∀ d r, op = ClientOp.start d r → s.isCasting = false) :
      ReachableNoRestart (applyOp s op)

/-- JSON-shaped JavaScript value, the type of inbound bridge messages
(event.data in webview-bridge.ts). -/
inductive BVal where
  | null
  | bool (b : Bool)
  | num (n : Int)
  | str (s : String)
  | arr (xs : List BVal)
  | obj (fs : List (String × BVal))

/-- Property access on a message object; non-objects have no properties. -/
def getBField (m : BVal) (k : String) : Option BVal :=
  match m with
  | .obj fs => alookup k fs
  | _ => none

/-- JS truthiness of a value, as used by `message.payload || {}`. -/
def bvalTruthy : BVal → Bool
  | .null => false
  | .bool b => b
  | .num n => !(n == 0)
  | .str s => !s.isEmpty
  | .arr _ => true
  | .obj _ => true

/-- z.string() shape test. -/
def isStrB : BVal → Bool
  | .str _ => true
  | _ => false

/-- z.boolean() shape test. -/
def isBoolB : BVal → Bool
  | .bool _ => true
  | _ => false

/-- z.number() shape test. -/
def isNumB : BVal → Bool
  | .num _ => true
  | _ => false

/-- z.object / z.record shape test: a plain (non-array) object. -/
def isRecordB : BVal → Bool
  | .obj _ => true
  | _ => false

/-- A required field of a zod object schema: present and well-shaped. -/
def reqB (m : BVal) (k : String) (p : BVal → Bool) : Bool :=
  match getBField m k with
  | some v => p v
  | none => false

/-- An optional field of a zod object schema: absent, or well-shaped. -/
def optB (m : BVal) (k : String) (p : BVal → Bool) : Bool :=
  match getBField m k with
  | some v => p v
  | none => true

/-- z.array(p) shape test. -/
def isArrOfB (p : BVal → Bool) : BVal → Bool
  | .arr xs => xs.all p
  | _ => false

/-- Device object schema used inside CAST_INITIALIZED / CAST_DEVICES_UPDATED. -/
def isDeviceB (v : BVal) : Bool :=
  isRecordB v && reqB v "id" isStrB && reqB v "name" isStrB &&
    reqB v "type" isStrB && reqB v "isConnected" isBoolB

/-- The base envelope shared by every message schema: an object whose
`requestId`, when present, is a string (zod strips unknown keys but accepts
them). -/
def validEnvelope (m : BVal) : Bool :=
  isRecordB m && optB m "requestId" isStrB

/-- Discriminant test: `type` is the given literal. -/
def hasTypeB (m : BVal) (t : String) : Bool :=
  match getBField m "type" with
  | some (.str s) => s == t
  | _ => false

/-- Payload shape test: `payload` is present and satisfies the shape. -/
def payloadIs (m : BVal) (p : BVal → Bool) : Bool :=
  match getBField m "payload" with
  | some v => p v
  | none => false

/-- z.enum(connecting, connected, terminated, error) for the session status. -/
def isSessionStatusB (v : BVal) : Bool :=
  match v with
  | .str s => s == "connecting" || s == "connected" || s == "terminated" || s == "error"
  | _ => false

/-- protocol.ts validateMessage: the message parses under one of the ten
schemas of the discriminated union (each a structural check of the envelope,
the `type` literal and the payload shape); returns a boolean, never throws. -/
def validateMessage (m : BVal) : Bool :=
  validEnvelope m &&
  ((hasTypeB m "CAST_READY" && payloadIs m (fun p =>
      isRecordB p && reqB p "gameId" isStrB && optB p "roomCode" isStrB &&
        optB p "broadcastUrl" isStrB && optB p "capabilities" (isArrOfB isStrB))) ||
   (hasTypeB m "CAST_INITIALIZED" && payloadIs m (fun p =>
      isRecordB p && reqB p "available" isBoolB && optB p "devices" (isArrOfB isDeviceB))) ||
   (hasTypeB m "CAST_SCAN_DEVICES" && payloadIs m isRecordB) ||
   (hasTypeB m "CAST_DEVICES_UPDATED" && payloadIs m (fun p =>
      isRecordB p && reqB p "devices" (isArrOfB isDeviceB))) ||
   (hasTypeB m "CAST_START_SESSION" && payloadIs m (fun p =>
      isRecordB p && reqB p "deviceId" isStrB && optB p "initialState" isRecordB)) ||
   (hasTypeB m "CAST_SESSION_UPDATED" && payloadIs m (fun p =>
      isRecordB p && reqB p "status" isSessionStatusB && reqB p "deviceId" isStrB &&
        reqB p "deviceName" isStrB && reqB p "sessionId" isStrB)) ||
   (hasTypeB m "CAST_END_SESSION" && payloadIs m isRecordB) ||
   (hasTypeB m "CAST_STATE_UPDATE" && payloadIs m (fun p =>
      isRecordB p && reqB p "state" isRecordB && optB p "timestamp" isNumB)) ||
   (hasTypeB m "CAST_STATE_CONFIRMED" && payloadIs m (fun p =>
      isRecordB p && reqB p "status" isStrB && optB p "timestamp" isNumB)) ||
   (hasTypeB m "CAST_ERROR" && payloadIs m (fun p =>
      isRecordB p && reqB p "code" isStrB && reqB p "message" isStrB &&
        optB p "details" isRecordB)))

/-- The `message.requestId` read in handleMessage, under the source's
truthiness guard (`message.requestId && ...`): an absent, non-string or empty
requestId correlates with nothing. -/
def msgRequestId (m : BVal) : Option String :=
  match getBField m "requestId" with
  | some (.str s) => if s.isEmpty then none else some s
  | _ => none

/-- `resolve(message.payload || {})`: the payload, or an empty object if the
payload is falsy or absent. -/
def payloadOrEmpty (m : BVal) : BVal :=
  match getBField m "payload" with
  | some p => if bvalTruthy p then p else .obj []
  | none => .obj []

/-- How a sendMessageWithResponse future settles.  `timedOut` is the rejection
produced by the timeout timer (carrying the timeout and the message type that
the source interpolates into the error text); `resolved` carries the response
payload. -/
inductive ROutcome where
  | resolved (payload : BVal)
  | timedOut (timeoutMs : Nat) (msgType : String)

/-- Settle a request's future: a promise is fulfilled at most once, so a
request that already has an outcome keeps it. -/
def settleOutcome (k : String) (o : ROutcome) (rs : List (String × ROutcome)) :
    List (String × ROutcome) :=
  if (alookup k rs).isSome then rs else rs ++ [(k, o)]

/-- WebViewBridge state: the pendingRequests map (each entry abstracting its
resolve/reject/timer closure by the requestId, the timeout and the message
type captured in it) and the settlement outcomes of the per-request futures. -/
structure BridgeState where
  pending : List (String × Nat × String)
  results : List (String × ROutcome)

/-- WebViewBridge.sendMessageWithResponse, registration phase: throws when the
message's requestId is falsy; otherwise stores a Pending Request entry (and
sends the message). -/
def sendMessageWithResponse (st : BridgeState) (msgType : String)
    (requestId : Option String) (timeoutMs : Nat) : Except String BridgeState :=
  match requestId with
  | none => .error "Message must have a requestId for sendMessageWithResponse"
  | some r =>
      if r.isEmpty then .error "Message must have a requestId for sendMessageWithResponse"
      else .ok { st with pending := aset r (timeoutMs, msgType) st.pending }

/-- The timeout timer callback of sendMessageWithResponse firing for request
`r` (with its captured timeout and message type): deletes the Pending Request
entry and rejects the future with the timeout error.  The timer is cleared
exactly when the entry is consumed by a response, so a cleared timer never
runs this. -/
def fireTimeout (st : BridgeState) (r : String) (t : Nat) (ty : String) : BridgeState :=
  { pending := adelete r st.pending
    results := settleOutcome r (.timedOut t ty) st.results }

/-- WebViewBridge.handleMessage: drops invalid messages; a valid message whose
(truthy) requestId matches a Pending Request clears its timer, removes the
entry and resolves the future with the payload; anything else is left to the
other window listeners. -/
def handleMessage (st : BridgeState) (m : BVal) : BridgeState :=
  if validateMessage m = false then st
  else
    match msgRequestId m with
    | some r =>
        match alookup r st.pending with
        | some _ =>
            { pending := adelete r st.pending
              results := settleOutcome r (.resolved (payloadOrEmpty m)) st.results }
        | none => st
    | none => st

/-- The window as seen by the bridge and its clients: the bridge state plus
the log of message events delivered to the listeners registered through
Bridge.addEventListener.  addEventListener is a passthrough to
window.addEventListener, and the bridge's own handleMessage is just one more
window listener, so the window hands every inbound message both to
handleMessage and to every registered general listener. -/
structure WindowState where
  bridge : BridgeState
  listenerLog : List BVal

/-- One inbound message event dispatched by the window: handleMessage runs,
and the message is also delivered to all general listeners. -/
def windowDeliver (w : WindowState) (m : BVal) : WindowState :=
  { bridge := handleMessage w.bridge m
    listenerLog := w.listenerLog ++ [m] }

/-- JavaScript value as seen by the StateManager (state.ts).  Primitives
(numbers, strings, booleans, null, undefined) are abstracted by their identity
under ===, which is all `isEqual` inspects of them; arrays are represented as
index-keyed objects, which is exactly how `isEqual` treats them (it walks
Object.keys).  NaN, whose === is irreflexive, is outside the model. -/
inductive Value where
  | prim (s : String)
  | obj (fs : List (String × Value))

/-- Object property lookup for `objA[key]`. -/
def lookupFieldV (k : String) (fs : List (String × Value)) : Option Value :=
  alookup k fs

mutual
/-- StateManager.isEqual (state.ts): reference/primitive === first (on the
model, primitive identity; reference equality on objects implies structural
equality, so eliding that shortcut preserves the result), null and
non-object guards, then key-count equality and a walk over the first
object's keys checking membership and recursive equality in the second. -/
def isEqual : Value → Value → Bool
  | .prim a, .prim b => a == b
  | .obj fa, .obj fb => fa.length == fb.length && keysAllEqual fa fb
  | _, _ => false

/-- The `for (const key of keysA)` loop body of isEqual: every key of the
first object is present in the second with an isEqual value. -/
def keysAllEqual : List (String × Value) → List (String × Value) → Bool
  | [], _ => true
  | (k, v) :: rest, fb =>
      (match lookupFieldV k fb with
       | some w => isEqual v w
       | none => false) && keysAllEqual rest fb
end

/-- No two fields of an object share a key (true of every JavaScript object;
the model's well-formedness condition). -/
def nodupKeysB : List (String × Value) → Bool
  | [] => true
  | (k, _) :: rest => !(rest.any (fun kv => kv.1 == k)) && nodupKeysB rest

mutual
/-- Well-formed value: every object in it has duplicate-free keys. -/
def wfV : Value → Bool
  | .prim _ => true
  | .obj fs => nodupKeysB fs && wfFields fs

/-- All field values are well-formed. -/
def wfFields : List (String × Value) → Bool
  | [] => true
  | (_, v) :: rest => wfV v && wfFields rest
end

/-- Modelled from the spec's words for the equality of §4.3 / C9, for
comparison with the source's isEqual: two values are structurally equal when
they are the same primitive, or both objects with identical key sets whose
values at each key are structurally equal - a deep, key-order-independent
notion phrased through lookups only. -/
inductive SpecEq : Value → Value → Prop
  | prim (s : String) : SpecEq (.prim s) (.prim s)
  | obj (fa fb : List (String × Value))
      (hkeys : ∀ k, (lookupFieldV k fa).isSome = true ↔ (lookupFieldV k fb).isSome = true)
      (hvals : ∀ k va vb, lookupFieldV k fa = some va → lookupFieldV k fb = some vb →
        SpecEq va vb) :
      SpecEq (.obj fa) (.obj fb)

/-- A state snapshot or partial update held by the StateManager: a JS object. -/
def SObj : Type := List (String × Value)

/-- JS object spread `{...a, ...b}`: the keys of `a` in order, with `b`'s
value where `b` overrides, followed by the keys of `b` not in `a`.  (The
integer-key reordering quirk of JS property order is immaterial here: all
theorems read the result through lookups.) -/
def jsSpread (a b : SObj) : SObj :=
  (a.map (fun kv =>
    match lookupFieldV kv.1 b with
    | some v => (kv.1, v)
    | none => kv))
  ++ b.filter (fun kv => (lookupFieldV kv.1 a).isNone)

/-- StateManager.setState with a partial-object updater:
`this.state = { ...this.state, ...updates }`. -/
def setState (s p : SObj) : SObj :=
  jsSpread s p

/-- StateManager.setState with a function updater: the updater is applied to
a snapshot of the current state and its result shallow-merged. -/
def setStateWith (s : SObj) (updater : SObj → SObj) : SObj :=
  jsSpread s (updater s)

/-- One setState as seen by one selector subscription (notifyListeners in
state.ts): merge the update, recompute the selector on the new state, and
notify - updating the cached value - exactly when isEqual finds the new value
different from the cached one.  Returns the new state, the new cached value
and whether the listener was invoked. -/
def selectStep (f : SObj → Value) (cached : Value) (s : SObj) (p : SObj) :
    SObj × Value × Bool :=
  let s₂ := jsSpread s p
  let nv := f s₂
  if isEqual cached nv then (s₂, cached, false) else (s₂, nv, true)

/-- Number of times a selector's listener is invoked over a sequence of
setState calls. -/
def notifyCount (f : SObj → Value) (cached : Value) (s : SObj) : List SObj → Nat
  | [] => 0
  | p :: ps =>
      match selectStep f cached s p with
      | (s₂, c₂, b) => (if b then 1 else 0) + notifyCount f c₂ s₂ ps

/-- The states the store passes through over a sequence of setState calls. -/
def statesAfter (s : SObj) : List SObj → List SObj
  | [] => []
  | p :: ps => jsSpread s p :: statesAfter (jsSpread s p) ps

/-- A settled run that starts a second cast while one is already connected:
start (ack ok), session-connected event, start again (ack ok). -/
def restartOps : List ClientOp :=
  [ ClientOp.start "d1" (.ok ()),
    ClientOp.inbound (.sessionUpdated
      { status := .connected, deviceId := "d1", deviceName := "TV",
        sessionId := "s1", error := none }),
    ClientOp.start "d2" (.ok ()) ]

/-- A casting state whose device list marks the cast device as connected
(as a host-sent device event may report it). -/
def connectedCastState : CastState :=
  { initialState with
      isCasting := true
      deviceId := some "d1"
      deviceName := some "TV"
      sessionId := some "s1"
      devices := [{ id := "d1", name := "TV", type := "chromecast", isConnected := true }] }

/-- Bridge state with one Pending Request, its future unsettled. -/
def onePendingBridge : BridgeState :=
  { pending := [("r1", (5000, "CAST_SCAN_DEVICES"))], results := [] }

/-- A valid correlated response message carrying requestId r1. -/
def lateResponseMsg : BVal :=
  .obj [("type", .str "CAST_STATE_CONFIRMED"),
        ("payload", .obj [("status", .str "ok")]),
        ("requestId", .str "r1")]

/-- Window with one Pending Request and no listener deliveries yet. -/
def onePendingWindow : WindowState :=
  { bridge := { pending := [("r1", (5000, "CAST_READY"))], results := [] }
    listenerLog := [] }

/-- A valid correlated response message for the window scenario. -/
def responseMsg : BVal :=
  .obj [("type", .str "CAST_STATE_CONFIRMED"),
        ("payload", .obj [("status", .str "ok")]),
        ("requestId", .str "r1")]

/-- A constant selector, used to exercise the selector machinery. -/
def constSelector : SObj → Value :=
  fun _ => Value.prim "k"

theorem alookup_append_some {α : Type} {k : String} {l₁ : List (String × α)} {v : α}
    (l₂ : List (String × α)) (h : alookup k l₁ = some v) :
    alookup k (l₁ ++ l₂) = some v := by
  induction l₁ with
  | nil => simp [alookup] at h
  | cons kv rest ih =>
      obtain ⟨k₂, w⟩ := kv
      cases hk : (k₂ == k) with
      | true =>
          simp [alookup, hk] at h ⊢
          exact h
      | false =>
          simp [alookup, hk] at h ⊢
          exact ih h

theorem alookup_append_none {α : Type} {k : String} {l₁ : List (String × α)}
    (l₂ : List (String × α)) (h : alookup k l₁ = none) :
    alookup k (l₁ ++ l₂) = alookup k l₂ := by
  induction l₁ with
  | nil => rfl
  | cons kv rest ih =>
      obtain ⟨k₂, w⟩ := kv
      cases hk : (k₂ == k) with
      | true => simp [alookup, hk] at h
      | false =>
          simp [alookup, hk] at h ⊢
          exact ih h

theorem alookup_adelete_self {α : Type} (k : String) (l : List (String × α)) :
    alookup k (adelete k l) = none := by
  induction l with
  | nil => rfl
  | cons kv rest ih =>
      obtain ⟨k₂, w⟩ := kv
      cases hk : (k₂ == k) with
      | true => simpa [adelete, List.filter_cons, hk] using ih
      | false => simpa [adelete, List.filter_cons, hk, alookup] using ih

/-- C1: if the correlated CAST_START_SESSION send fails, startCasting rolls
`isConnecting` and `deviceId` back to their pre-call values (false/null),
leaves `isCasting` unchanged (still false), records a non-null error, and the
operation rejects with the same failure. -/
theorem startCasting_failure_rolls_back (s : CastState) (d e : String)
    (_hdev : s.deviceId = none) (_hconn : s.isConnecting = false)
    (hcast : s.isCasting = false) :
    (startCasting s d (.error e)).1.isConnecting = false ∧
    (startCasting s d (.error e)).1.deviceId = none ∧
    (startCasting s d (.error e)).1.isCasting = s.isCasting ∧
    (startCasting s d (.error e)).1.isCasting = false ∧
    (startCasting s d (.error e)).1.error.isSome = true ∧
    (startCasting s d (.error e)).2 = Except.error e := by
  refine ⟨rfl, rfl, rfl, ?_, rfl, rfl⟩
  simpa [startCasting, startBegin, startSettle, handleError] using hcast

theorem startCasting_failure_rolls_back_witness :
    (startCasting initialState "d1" (.error "send failed")).1.isConnecting = false ∧
    (startCasting initialState "d1" (.error "send failed")).1.deviceId = none ∧
    (startCasting initialState "d1" (.error "send failed")).1.isCasting =
      initialState.isCasting ∧
    (startCasting initialState "d1" (.error "send failed")).1.isCasting = false ∧
    (startCasting initialState "d1" (.error "send failed")).1.error.isSome = true ∧
    (startCasting initialState "d1" (.error "send failed")).2 = Except.error "send failed" :=
  startCasting_failure_rolls_back initialState "d1" "send failed" rfl rfl rfl

/-- C2 counterexample: completing a second startCasting while a session is
connected yields a settled state with `isCasting` and `isConnecting` both
true, so the unrestricted mutual-exclusion claim fails on the code. -/
theorem restart_reaches_casting_and_connecting :
    (runOps initialState restartOps).isCasting = true ∧
    (runOps initialState restartOps).isConnecting = true :=
  ⟨rfl, rfl⟩

/-- C2 (amended): in every state reachable by settled operations and handled
events from the initial state, `isCasting` and `isConnecting` are never both
true, provided each startCasting is issued from a state with
`isCasting = false`. -/
theorem no_restart_mutual_exclusion (s : CastState) (h : ReachableNoRestart s) :
    ¬(s.isCasting = true ∧ s.isConnecting = true) := by
  induction h with
  | init => simp [initialState]
  | step s op h hguard ih =>
      cases op with
      | signalReady r =>
          cases r <;>
            simpa [applyOp, signalReady, handleError] using ih
      | scan r =>
          cases r <;>
            simpa [applyOp, scanForDevices, scanBegin, scanSettle, handleError] using ih
      | start d r =>
          have hc : s.isCasting = false := hguard d r rfl
          cases r <;>
            simp [applyOp, startCasting, startBegin, startSettle, handleError, hc]
      | stop r =>
          by_cases ht : truthyStr s.sessionId = false
          · simpa [applyOp, stopCasting, ht] using ih
          · cases r <;>
              simp_all [applyOp, stopCasting, handleError]
      | stateUpdate r =>
          by_cases ht : truthyStr s.sessionId = false
          · simpa [applyOp, sendStateUpdate, ht] using ih
          · cases r <;>
              simp_all [applyOp, sendStateUpdate, handleError]
      | resetError =>
          simpa [applyOp, resetError] using ih
      | inbound e =>
          cases e with
          | devicesUpdated ds =>
              simpa [applyOp, handleEvent] using ih
          | sessionUpdated p =>
              cases hst : p.status <;>
                simp_all [applyOp, handleEvent]
          | castError c m dt =>
              simpa [applyOp, handleEvent] using ih

theorem no_restart_mutual_exclusion_witness :
    ¬(initialState.isCasting = true ∧ initialState.isConnecting = true) :=
  no_restart_mutual_exclusion initialState ReachableNoRestart.init

/-- C3 counterexample: a successful stopCasting from a state whose device
list marks the cast device as connected clears the session but leaves the
device entry untouched - it still has `isConnected = true`, so the claim's
final conjunct fails on the code. -/
theorem stopCasting_leaves_device_connected :
    (stopCasting connectedCastState (.ok ())).1.sessionId = none ∧
    (stopCasting connectedCastState (.ok ())).1.devices =
      [{ id := "d1", name := "TV", type := "chromecast", isConnected := true }] :=
  ⟨rfl, rfl⟩

/-- C3 (amended): a stopCasting whose CAST_END_SESSION send succeeds, from a
state with a non-null non-empty sessionId, clears `isCasting`, `isConnecting`,
`deviceId`, `deviceName` and `sessionId` and leaves the `devices` list
entirely unchanged (no device's isConnected flag is modified). -/
theorem stopCasting_success_clears_session_fields (s : CastState) (sid : String)
    (hsid : s.sessionId = some sid) (hne : sid ≠ "") :
    (stopCasting s (.ok ())).1.isCasting = false ∧
    (stopCasting s (.ok ())).1.isConnecting = false ∧
    (stopCasting s (.ok ())).1.deviceId = none ∧
    (stopCasting s (.ok ())).1.deviceName = none ∧
    (stopCasting s (.ok ())).1.sessionId = none ∧
    (stopCasting s (.ok ())).1.devices = s.devices ∧
    (stopCasting s (.ok ())).2.1 = ["CAST_END_SESSION"] ∧
    (stopCasting s (.ok ())).2.2 = Except.ok () := by
  have ht : truthyStr s.sessionId = true := by
    have hemp : ¬(sid.isEmpty = true) := fun hemp => hne ((String.isEmpty_iff sid).mp hemp)
    simp [truthyStr, hsid]
    simpa using hemp
  simp [stopCasting, ht]

theorem stopCasting_success_clears_session_fields_witness :
    (stopCasting connectedCastState (.ok ())).1.isCasting = false ∧
    (stopCasting connectedCastState (.ok ())).1.isConnecting = false ∧
    (stopCasting connectedCastState (.ok ())).1.deviceId = none ∧
    (stopCasting connectedCastState (.ok ())).1.deviceName = none ∧
    (stopCasting connectedCastState (.ok ())).1.sessionId = none ∧
    (stopCasting connectedCastState (.ok ())).1.devices = connectedCastState.devices ∧
    (stopCasting connectedCastState (.ok ())).2.1 = ["CAST_END_SESSION"] ∧
    (stopCasting connectedCastState (.ok ())).2.2 = Except.ok () :=
  stopCasting_success_clears_session_fields connectedCastState "s1" rfl (by decide)

/-- C4: stopCasting in a state with a null sessionId resolves successfully,
sends no message and leaves the whole state - in particular `error` -
unchanged, whatever outcome the (unsent) correlated send would have had. -/
theorem stopCasting_no_session_noop (s : CastState) (r : Except String Unit)
    (h : s.sessionId = none) :
    stopCasting s r = (s, [], Except.ok ()) := by
  simp [stopCasting, truthyStr, h]

theorem stopCasting_no_session_noop_witness :
    stopCasting initialState (.error "would-be failure") =
      (initialState, [], Except.ok ()) :=
  stopCasting_no_session_noop initialState (.error "would-be failure") rfl

/-- C7 counterexample: a scanForDevices whose correlated ack resolves
successfully with no CAST_DEVICES_UPDATED event leaves `isScanning = true` -
the ack itself never resolves scanning back to false. -/
theorem scan_ack_without_event_keeps_isScanning :
    (scanForDevices initialState (.ok ())).1.isScanning = true :=
  rfl

/-- C7 (amended): scanForDevices sets `isScanning = true` before the
CAST_SCAN_DEVICES send; a successful ack performs no state update at all
(so isScanning stays true until a CAST_DEVICES_UPDATED event clears it),
while a send failure and the devices-updated event both reset it to false. -/
theorem scan_isScanning_lifecycle (s : CastState) (e : String)
    (ds : Option (List CastDevice)) :
    (scanBegin s).isScanning = true ∧
    (scanForDevices s (.ok ())).1 = scanBegin s ∧
    (scanForDevices s (.error e)).1.isScanning = false ∧
    (handleEvent s (.devicesUpdated ds)).isScanning = false :=
  ⟨rfl, rfl, rfl, rfl⟩

/-- C10: a CAST_SESSION_UPDATED event whose status is connecting matches no
branch of the handler's if/else chain and leaves the state exactly unchanged
(in particular it does not set isConnecting). -/
theorem session_connecting_event_noop (s : CastState) (p : SessionUpdatedPayload)
    (h : p.status = SessionStatus.connecting) :
    handleEvent s (.sessionUpdated p) = s := by
  obtain ⟨st, di, dn, si, er⟩ := p
  simp only at h
  subst h
  rfl

theorem session_connecting_event_noop_witness :
    handleEvent initialState (.sessionUpdated
      { status := .connecting, deviceId := "d1", deviceName := "TV",
        sessionId := "s1", error := none }) = initialState :=
  session_connecting_event_noop initialState
    { status := .connecting, deviceId := "d1", deviceName := "TV",
      sessionId := "s1", error := none } rfl

/-- C5: when a correlated send's timeout timer fires with the Pending Request
still present (no matching response arrived in time), the future rejects with
the timeout-kind error, the Pending Request entry is removed from the map,
and a late response carrying the same requestId settles nothing: the bridge
state is left exactly as the timeout left it, so the future stays rejected
(fulfilled at most once) and the late message is ignored. -/
theorem timeout_rejects_and_ignores_late_response (st : BridgeState) (r : String)
    (t : Nat) (ty : String) (m : BVal)
    (_hpend : alookup r st.pending = some (t, ty))
    (hunsettled : alookup r st.results = none)
    (hm : msgRequestId m = some r) :
    alookup r (fireTimeout st r t ty).results = some (ROutcome.timedOut t ty) ∧
    alookup r (fireTimeout st r t ty).pending = none ∧
    handleMessage (fireTimeout st r t ty) m = fireTimeout st r t ty := by
  refine ⟨?_, ?_, ?_⟩
  · show alookup r (settleOutcome r (.timedOut t ty) st.results) = some (ROutcome.timedOut t ty)
    rw [settleOutcome, hunsettled]
    simp only [Option.isSome_none, Bool.false_eq_true, if_false]
    rw [alookup_append_none _ hunsettled]
    simp [alookup]
  · exact alookup_adelete_self r st.pending
  · unfold handleMessage
    cases hv : validateMessage m with
    | false => simp
    | true =>
        simp only [hv, hm]
        have : alookup r (fireTimeout st r t ty).pending = none :=
          alookup_adelete_self r st.pending
        simp [this]

theorem timeout_rejects_and_ignores_late_response_witness :
    alookup "r1" (fireTimeout onePendingBridge "r1" 5000 "CAST_SCAN_DEVICES").results =
      some (ROutcome.timedOut 5000 "CAST_SCAN_DEVICES") ∧
    alookup "r1" (fireTimeout onePendingBridge "r1" 5000 "CAST_SCAN_DEVICES").pending = none ∧
    handleMessage (fireTimeout onePendingBridge "r1" 5000 "CAST_SCAN_DEVICES") lateResponseMsg =
      fireTimeout onePendingBridge "r1" 5000 "CAST_SCAN_DEVICES" :=
  timeout_rejects_and_ignores_late_response onePendingBridge "r1" 5000 "CAST_SCAN_DEVICES"
    lateResponseMsg rfl rfl rfl

/-- C6 counterexample: a valid response matching the Pending Request "r1" is
consumed (entry removed, future resolved) and is nonetheless delivered to the
general listeners registered via addEventListener - the listener log receives
it - because addEventListener is a passthrough to the same window event
target and the bridge filters nothing. -/
theorem consumed_response_still_delivered_to_listeners :
    (windowDeliver onePendingWindow responseMsg).bridge.pending = [] ∧
    alookup "r1" (windowDeliver onePendingWindow responseMsg).bridge.results =
      some (ROutcome.resolved (BVal.obj [("status", BVal.str "ok")])) ∧
    (windowDeliver onePendingWindow responseMsg).listenerLog = [responseMsg] :=
  ⟨rfl, rfl, rfl⟩

/-- C6 (amended): an inbound valid message whose requestId matches a Pending
Request resolves that request with its payload and removes the entry, but the
message is still delivered to every listener registered via addEventListener
(registration is a passthrough to the shared window event target; consumption
does not suppress delivery). -/
theorem response_dispatch_resolves_and_still_delivers (w : WindowState) (m : BVal)
    (r : String) (e : Nat × String)
    (hv : validateMessage m = true)
    (hm : msgRequestId m = some r)
    (hp : alookup r w.bridge.pending = some e)
    (hu : alookup r w.bridge.results = none) :
    alookup r (windowDeliver w m).bridge.pending = none ∧
    alookup r (windowDeliver w m).bridge.results =
      some (ROutcome.resolved (payloadOrEmpty m)) ∧
    (windowDeliver w m).listenerLog = w.listenerLog ++ [m] := by
  have hred : handleMessage w.bridge m =
      { pending := adelete r w.bridge.pending
        results := settleOutcome r (.resolved (payloadOrEmpty m)) w.bridge.results } := by
    unfold handleMessage
    rw [hv]
    simp [hm, hp]
  refine ⟨?_, ?_, rfl⟩
  · show alookup r (handleMessage w.bridge m).pending = none
    rw [hred]
    exact alookup_adelete_self r w.bridge.pending
  · show alookup r (handleMessage w.bridge m).results =
      some (ROutcome.resolved (payloadOrEmpty m))
    rw [hred]
    show alookup r (settleOutcome r (.resolved (payloadOrEmpty m)) w.bridge.results) = _
    rw [settleOutcome, hu]
    simp only [Option.isSome_none, Bool.false_eq_true, if_false]
    rw [alookup_append_none _ hu]
    simp [alookup]

theorem response_dispatch_resolves_and_still_delivers_witness :
    alookup "r1" (windowDeliver onePendingWindow responseMsg).bridge.pending = none ∧
    alookup "r1" (windowDeliver onePendingWindow responseMsg).bridge.results =
      some (ROutcome.resolved (payloadOrEmpty responseMsg)) ∧
    (windowDeliver onePendingWindow responseMsg).listenerLog =
      onePendingWindow.listenerLog ++ [responseMsg] :=
  response_dispatch_resolves_and_still_delivers onePendingWindow responseMsg "r1"
    (5000, "CAST_READY") rfl rfl rfl rfl

theorem alookup_map_override (k : String) (a b : SObj) :
    alookup k (a.map (fun kv =>
      match lookupFieldV kv.1 b with
      | some v => (kv.1, v)
      | none => kv)) =
      (alookup k a).map (fun v => (alookup k b).getD v) := by
  induction a with
  | nil => rfl
  | cons kv rest ih =>
      obtain ⟨k₂, v₂⟩ := kv
      cases hk : (k₂ == k) with
      | true =>
          have hkeq : k₂ = k := by simpa using hk
          subst hkeq
          cases hb : lookupFieldV k₂ b with
          | none =>
              simp [alookup, hk, lookupFieldV] at hb ⊢
              simp [hb]
          | some w =>
              simp [alookup, hk, lookupFieldV] at hb ⊢
              simp [hb]
      | false =>
          cases hb : lookupFieldV k₂ b with
          | none => simpa [alookup, hk, hb] using ih
          | some w => simpa [alookup, hk, hb] using ih

theorem alookup_filter_notin (k : String) (a b : SObj) (h : alookup k a = none) :
    alookup k (b.filter (fun kv => (lookupFieldV kv.1 a).isNone)) = alookup k b := by
  induction b with
  | nil => rfl
  | cons kv rest ih =>
      obtain ⟨k₂, w⟩ := kv
      cases hk : (k₂ == k) with
      | true =>
          have hkeq : k₂ = k := by simpa using hk
          subst hkeq
          have hpred : (lookupFieldV k₂ a).isNone = true := by
            simp [lookupFieldV, h]
          simp [List.filter_cons, hpred, alookup, hk]
      | false =>
          cases hpred : (lookupFieldV k₂ a).isNone with
          | true => simpa [List.filter_cons, hpred, alookup, hk] using ih
          | false => simpa [List.filter_cons, hpred, alookup, hk] using ih

theorem alookup_filter_none {α : Type} (k : String) (pred : String × α → Bool)
    (l : List (String × α)) (h : alookup k l = none) :
    alookup k (l.filter pred) = none := by
  induction l with
  | nil => rfl
  | cons kv rest ih =>
      obtain ⟨k₂, w⟩ := kv
      cases hk : (k₂ == k) with
      | true => simp [alookup, hk] at h
      | false =>
          simp only [alookup, hk] at h
          cases hpred : pred (k₂, w) with
          | true => simpa [List.filter_cons, hpred, alookup, hk] using ih h
          | false => simpa [List.filter_cons, hpred] using ih h

theorem alookup_jsSpread (k : String) (a b : SObj) :
    alookup k (jsSpread a b) =
      match alookup k b with
      | some w => some w
      | none => alookup k a := by
  unfold jsSpread
  cases ha : alookup k a with
  | some v =>
      have hmap := alookup_map_override k a b
      rw [ha] at hmap
      cases hb : alookup k b with
      | some w =>
          rw [hb] at hmap
          simp only [Option.map_some, Option.getD_some] at hmap
          rw [alookup_append_some _ hmap]
      | none =>
          rw [hb] at hmap
          simp only [Option.map_some, Option.getD_none] at hmap
          rw [alookup_append_some _ hmap]
  | none =>
      have hmap := alookup_map_override k a b
      rw [ha] at hmap
      simp at hmap
      rw [alookup_append_none _ hmap, alookup_filter_notin k a b ha]
      cases hb : alookup k b <;> simp [ha]

/-- C8: setState shallow-merges the partial update into the previous
snapshot: the new state agrees with the update on every key the update
carries and with the old state on every other key. -/
theorem setState_shallow_merge (s p : SObj) (k : String) :
    ((lookupFieldV k p).isSome = true →
      lookupFieldV k (setState s p) = lookupFieldV k p) ∧
    ((lookupFieldV k p).isSome = false →
      lookupFieldV k (setState s p) = lookupFieldV k s) := by
  unfold setState lookupFieldV
  rw [alookup_jsSpread]
  constructor <;> intro h <;> cases hp : alookup k p <;> simp_all

theorem setState_shallow_merge_witness :
    lookupFieldV "a" (setState [("a", Value.prim "1"), ("b", Value.prim "x")]
      [("a", Value.prim "2")]) = lookupFieldV "a" [("a", Value.prim "2")] ∧
    lookupFieldV "b" (setState [("a", Value.prim "1"), ("b", Value.prim "x")]
      [("a", Value.prim "2")]) =
      lookupFieldV "b" [("a", Value.prim "1"), ("b", Value.prim "x")] :=
  ⟨(setState_shallow_merge [("a", Value.prim "1"), ("b", Value.prim "x")]
      [("a", Value.prim "2")] "a").1 rfl,
   (setState_shallow_merge [("a", Value.prim "1"), ("b", Value.prim "x")]
      [("a", Value.prim "2")] "b").2 rfl⟩

theorem value_ind (P : Value → Prop) (hprim : ∀ s, P (.prim s))
    (hobj : ∀ fs, (∀ kv ∈ fs, P kv.2) → P (.obj fs)) : ∀ v, P v := by
  have haux : ∀ n, ∀ v : Value, sizeOf v ≤ n → P v := by
    intro n
    induction n with
    | zero =>
        intro v hv
        exfalso
        cases v with
        | prim s => simp at hv
        | obj fs => simp at hv
    | succ n ih =>
        intro v hv
        cases v with
        | prim s => exact hprim s
        | obj fs =>
            refine hobj fs (fun kv hkv => ih kv.2 ?_)
            have h1 : sizeOf kv < sizeOf fs := List.sizeOf_lt_of_mem hkv
            have h2 : sizeOf kv.2 < sizeOf kv := by
              obtain ⟨k, w⟩ := kv
              simp
            have h3 : sizeOf (Value.obj fs) = 1 + sizeOf fs := by simp
            omega
  exact fun v => haux (sizeOf v) v le_rfl

theorem mem_of_alookup_eq_some {α : Type} {k : String} {v : α} {l : List (String × α)}
    (h : alookup k l = some v) : (k, v) ∈ l := by
  induction l with
  | nil => simp [alookup] at h
  | cons kv rest ih =>
      obtain ⟨k₂, w⟩ := kv
      cases hk : (k₂ == k) with
      | true =>
          have hke : k₂ = k := by simpa using hk
          simp only [alookup, hk, if_true] at h
          subst hke
          injection h with h
          subst h
          exact List.mem_cons_self _ _
      | false =>
          simp only [alookup, hk, Bool.false_eq_true, if_false] at h
          exact List.mem_cons_of_mem _ (ih h)

theorem alookup_isSome_iff_mem_keys {α : Type} (k : String) (l : List (String × α)) :
    (alookup k l).isSome = true ↔ k ∈ l.map Prod.fst := by
  induction l with
  | nil => simp [alookup]
  | cons kv rest ih =>
      obtain ⟨k₂, w⟩ := kv
      cases hk : (k₂ == k) with
      | true =>
          have hke : k₂ = k := by simpa using hk
          subst hke
          simp [alookup]
      | false =>
          have hke : ¬(k = k₂) := fun he => (by simpa using hk : ¬(k₂ = k)) he.symm
          simp [alookup, hk, ih, hke]

theorem alookup_of_mem_nodup {k : String} {v : Value} {l : List (String × Value)}
    (hnd : nodupKeysB l = true) (h : (k, v) ∈ l) : alookup k l = some v := by
  induction l with
  | nil => simp at h
  | cons kv rest ih =>
      obtain ⟨k₂, w⟩ := kv
      simp only [nodupKeysB, Bool.and_eq_true] at hnd
      obtain ⟨hnotin, hnd2⟩ := hnd
      rcases List.mem_cons.mp h with heq | hmem
      · injection heq with h1 h2
        subst h1
        subst h2
        simp [alookup]
      · cases hk : (k₂ == k) with
        | true =>
            exfalso
            have hke : k₂ = k := by simpa using hk
            subst hke
            simp only [Bool.not_eq_true', List.any_eq_false] at hnotin
            have := hnotin (k₂, v) hmem
            simp at this
        | false =>
            simp only [alookup, hk, Bool.false_eq_true, if_false]
            exact ih hnd2 hmem

theorem nodupKeys_nodup {l : List (String × Value)} (h : nodupKeysB l = true) :
    (l.map Prod.fst).Nodup := by
  induction l with
  | nil => simp
  | cons kv rest ih =>
      obtain ⟨k₂, w⟩ := kv
      simp only [nodupKeysB, Bool.and_eq_true] at h
      obtain ⟨h1, h2⟩ := h
      simp only [List.map_cons, List.nodup_cons]
      refine ⟨?_, ih h2⟩
      intro hmem
      obtain ⟨kv₂, hkv₂, hfst⟩ := List.mem_map.mp hmem
      simp only [Bool.not_eq_true', List.any_eq_false] at h1
      have := h1 kv₂ hkv₂
      simp [hfst] at this

theorem wfV_obj_parts {fs : List (String × Value)} (h : wfV (.obj fs) = true) :
    nodupKeysB fs = true ∧ wfFields fs = true := by
  simpa [wfV, Bool.and_eq_true] using h

theorem wfFields_mem {fs : List (String × Value)} (h : wfFields fs = true)
    {kv : String × Value} (hkv : kv ∈ fs) : wfV kv.2 = true := by
  induction fs with
  | nil => simp at hkv
  | cons kv₀ rest ih =>
      obtain ⟨k, v⟩ := kv₀
      simp only [wfFields, Bool.and_eq_true] at h
      rcases List.mem_cons.mp hkv with heq | hmem
      · subst heq
        exact h.1
      · exact ih h.2 hmem

theorem keysAllEqual_mem {fa fb : List (String × Value)}
    (h : keysAllEqual fa fb = true) :
    ∀ kv ∈ fa, ∃ w, alookup kv.1 fb = some w ∧ isEqual kv.2 w = true := by
  induction fa with
  | nil => intro kv hkv; simp at hkv
  | cons kv₀ rest ih =>
      obtain ⟨k, v⟩ := kv₀
      simp only [keysAllEqual, Bool.and_eq_true] at h
      obtain ⟨hhead, htail⟩ := h
      intro kv hkv
      rcases List.mem_cons.mp hkv with heq | hmem
      · subst heq
        cases hl : lookupFieldV k fb with
        | none =>
            simp only [hl] at hhead
            simp at hhead
        | some w =>
            simp only [hl] at hhead
            exact ⟨w, hl, hhead⟩
      · exact ih htail kv hmem

theorem keysAllEqual_of {fa fb : List (String × Value)}
    (h : ∀ kv ∈ fa, ∃ w, alookup kv.1 fb = some w ∧ isEqual kv.2 w = true) :
    keysAllEqual fa fb = true := by
  induction fa with
  | nil => rfl
  | cons kv₀ rest ih =>
      obtain ⟨k, v⟩ := kv₀
      obtain ⟨w, hw, he⟩ := h (k, v) (List.mem_cons_self _ _)
      have hw2 : lookupFieldV k fb = some w := hw
      simp only [keysAllEqual, hw2, he, Bool.true_and]
      exact ih (fun kv hkv => h kv (List.mem_cons_of_mem _ hkv))

theorem mem_keys_of_subset_length {la lb : List String}
    (hna : la.Nodup) (hnb : lb.Nodup) (hlen : la.length = lb.length)
    (hsub : ∀ x ∈ la, x ∈ lb) : ∀ x ∈ lb, x ∈ la := by
  have hfin : la.toFinset ⊆ lb.toFinset := fun x hx =>
    List.mem_toFinset.mpr (hsub x (List.mem_toFinset.mp hx))
  have hca : la.toFinset.card = la.length := List.toFinset_card_of_nodup hna
  have hcb : lb.toFinset.card = lb.length := List.toFinset_card_of_nodup hnb
  have heq : la.toFinset = lb.toFinset := by
    refine Finset.eq_of_subset_of_card_le hfin ?_
    rw [hca, hcb, hlen]
  intro x hx
  exact List.mem_toFinset.mp (heq ▸ List.mem_toFinset.mpr hx)

theorem length_eq_of_mem_iff {la lb : List String} (hna : la.Nodup) (hnb : lb.Nodup)
    (h : ∀ x, x ∈ la ↔ x ∈ lb) : la.length = lb.length := by
  have heq : la.toFinset = lb.toFinset := by
    apply Finset.ext
    intro x
    simp only [List.mem_toFinset]
    exact h x
  calc la.length = la.toFinset.card := (List.toFinset_card_of_nodup hna).symm
    _ = lb.toFinset.card := by rw [heq]
    _ = lb.length := List.toFinset_card_of_nodup hnb

/-- The source's isEqual coincides, on well-formed values, with the spec's
structural (deep, key-order-independent) equality. -/
theorem isEqual_iff_specEq : ∀ a : Value, wfV a = true → ∀ b : Value, wfV b = true →
    (isEqual a b = true ↔ SpecEq a b) := by
  intro a
  induction a using value_ind with
  | hprim s =>
      intro _ b hb
      cases b with
      | prim t =>
          constructor
          · intro h
            have hst : s = t := by simpa [isEqual] using h
            subst hst
            exact SpecEq.prim s
          · intro h
            cases h
            simp [isEqual]
      | obj fb =>
          constructor
          · intro h
            simp [isEqual] at h
          · intro h
            cases h
  | hobj fs ih =>
      intro ha b hb
      cases b with
      | prim t =>
          constructor
          · intro h
            simp [isEqual] at h
          · intro h
            cases h
      | obj fb =>
          obtain ⟨hnd_a, hwf_a⟩ := wfV_obj_parts ha
          obtain ⟨hnd_b, hwf_b⟩ := wfV_obj_parts hb
          constructor
          · intro h
            simp only [isEqual, Bool.and_eq_true] at h
            obtain ⟨hlenb, hall⟩ := h
            have hlen : fs.length = fb.length := by simpa using hlenb
            have hmem := keysAllEqual_mem hall
            refine SpecEq.obj fs fb ?_ ?_
            · intro k
              constructor
              · intro hks
                obtain ⟨va, hva⟩ := Option.isSome_iff_exists.mp hks
                obtain ⟨w, hw, _⟩ := hmem (k, va) (mem_of_alookup_eq_some hva)
                show (alookup k fb).isSome = true
                simp [hw]
              · intro hks
                have hsub : ∀ x ∈ fs.map Prod.fst, x ∈ fb.map Prod.fst := by
                  intro x hx
                  have hx2 : (alookup x fs).isSome = true :=
                    (alookup_isSome_iff_mem_keys x fs).mpr hx
                  obtain ⟨va, hva⟩ := Option.isSome_iff_exists.mp hx2
                  obtain ⟨w, hw, _⟩ := hmem (x, va) (mem_of_alookup_eq_some hva)
                  refine (alookup_isSome_iff_mem_keys x fb).mp ?_
                  simp [hw]
                have hback := mem_keys_of_subset_length (nodupKeys_nodup hnd_a)
                  (nodupKeys_nodup hnd_b) (by simpa using hlen) hsub
                have hkfb : k ∈ fb.map Prod.fst :=
                  (alookup_isSome_iff_mem_keys k fb).mp hks
                exact (alookup_isSome_iff_mem_keys k fs).mpr (hback k hkfb)
            · intro k va vb hva hvb
              have hmem_a : (k, va) ∈ fs := mem_of_alookup_eq_some hva
              obtain ⟨w, hw, he⟩ := hmem (k, va) hmem_a
              have hwvb : w = vb := by
                have hvb2 : alookup k fb = some vb := hvb
                rw [hw] at hvb2
                injection hvb2
              have hwa : wfV va = true := wfFields_mem hwf_a hmem_a
              have hwb : wfV vb = true := by
                rw [← hwvb]
                exact wfFields_mem hwf_b (mem_of_alookup_eq_some hw)
              refine (ih (k, va) hmem_a hwa vb hwb).mp ?_
              rw [← hwvb]
              exact he
          · intro h
            cases h with
            | obj _ _ hkeys hvals =>
                simp only [isEqual, Bool.and_eq_true]
                constructor
                · have hiff : ∀ x, x ∈ fs.map Prod.fst ↔ x ∈ fb.map Prod.fst := by
                    intro x
                    rw [← alookup_isSome_iff_mem_keys, ← alookup_isSome_iff_mem_keys]
                    exact hkeys x
                  have := length_eq_of_mem_iff (nodupKeys_nodup hnd_a)
                    (nodupKeys_nodup hnd_b) hiff
                  simp only [List.length_map] at this
                  simpa using this
                · refine keysAllEqual_of ?_
                  intro kv hkv
                  obtain ⟨k, v⟩ := kv
                  have hva : alookup k fs = some v := alookup_of_mem_nodup hnd_a hkv
                  have hks : (lookupFieldV k fb).isSome = true := by
                    refine (hkeys k).mp ?_
                    show (alookup k fs).isSome = true
                    simp [hva]
                  obtain ⟨w, hw⟩ := Option.isSome_iff_exists.mp hks
                  have hse : SpecEq v w := hvals k v w hva hw
                  have hwa : wfV v = true := wfFields_mem hwf_a hkv
                  have hwb : wfV w = true :=
                    wfFields_mem hwf_b (mem_of_alookup_eq_some (show alookup k fb = some w from hw))
                  exact ⟨w, hw, (ih (k, v) hkv hwa w hwb).mpr hse⟩

/-- C9: a selector's listener fires exactly when the recomputed selector value
differs from the cached value under the structural (deep,
key-order-independent) equality; in particular, over any sequence of setState
calls on which the recomputed value stays structurally equal to the cached
one, the listener is invoked zero times. -/
theorem selector_notifications (f : SObj → Value) (c : Value) (s p : SObj)
    (ps : List SObj) (hc : wfV c = true) (hf : ∀ o, wfV (f o) = true) :
    ((∀ q ∈ statesAfter s ps, SpecEq c (f q)) → notifyCount f c s ps = 0) ∧
    ((selectStep f c s p).2.2 = true ↔ ¬ SpecEq c (f (jsSpread s p))) := by
  constructor
  · induction ps generalizing s with
    | nil => intro _; rfl
    | cons q ps ih =>
        intro h
        have h1 : SpecEq c (f (jsSpread s q)) := by
          refine h _ ?_
          simp [statesAfter]
        have he : isEqual c (f (jsSpread s q)) = true :=
          (isEqual_iff_specEq c hc (f (jsSpread s q)) (hf _)).mpr h1
        have hstep : notifyCount f c s (q :: ps) = notifyCount f c (jsSpread s q) ps := by
          simp [notifyCount, selectStep, he]
        rw [hstep]
        refine ih (jsSpread s q) ?_
        intro q₂ hq₂
        refine h q₂ ?_
        simp only [statesAfter, List.mem_cons]
        exact Or.inr hq₂
  · cases he : isEqual c (f (jsSpread s p)) with
    | true =>
        have hs : SpecEq c (f (jsSpread s p)) :=
          (isEqual_iff_specEq c hc (f (jsSpread s p)) (hf _)).mp he
        simp [selectStep, he, hs]
    | false =>
        have hs : ¬ SpecEq c (f (jsSpread s p)) := fun hsp =>
          absurd ((isEqual_iff_specEq c hc (f (jsSpread s p)) (hf _)).mpr hsp)
            (by simp [he])
        simp [selectStep, he, hs]

theorem selector_notifications_witness :
    notifyCount constSelector (Value.prim "k") [] [[]] = 0 :=
  (selector_notifications constSelector (Value.prim "k") [] [] [[]] rfl
    (fun _ => rfl)).1 (fun _ _ => SpecEq.prim "k")

end CastKit
